import Mathlib

/-!
A verification development for `school_center.py`, the exam-center
allocation script of the center-randomize repository.

The Python program is shallowly embedded: dictionaries become functions or
association lists, the mutable module-level state (`allocations`,
`centers_remaining_cap`, `remaining`) becomes explicit state records that are
threaded through the loops, and the two file writers are modelled by the
`rows` field of the run state (the intermediate distance-trace file is pure
diagnostic output and is not modelled).  The floating-point haversine
distance and the pseudo-random jitter used in sorting are abstracted into
function parameters `dist` and `jitter`; every theorem below is universally
quantified over them.  Machine integers are modelled by `ℤ` (Python integers
are unbounded, so no wrap-around is needed); student counts and capacities
read from the input files are non-negative by the data model and are typed
`ℕ` at the input boundary.
-/

namespace SchoolCenter

/-- `PREF_DISTANCE_THRESHOLD = 2` (km), from the source header. -/
def PREF_DISTANCE_THRESHOLD : ℚ := 2

/-- `ABS_DISTANCE_THRESHOLD = 7` (km), from the source header. -/
def ABS_DISTANCE_THRESHOLD : ℚ := 7

/-- `MIN_STUDENT_IN_CENTER = 10`, from the source header. -/
def MIN_STUDENT_IN_CENTER : ℤ := 10

/-- `STRETCH_CAPACITY_FACTOR = 0.02`, from the source header, as the exact
rational 1/50. -/
def STRETCH_CAPACITY_FACTOR : ℚ := 1 / 50

/-- `PREF_CUTOFF = -4`, from the source header. -/
def PREF_CUTOFF : ℤ := -4

/-- A school record, as produced by `read_tsv` from `schools.tsv`.
`count` is the parsed integer student count, non-negative by the data
model; `lat` and
`long` are kept as raw strings because the source tests them for emptiness
before converting to float. -/
structure School where
  scode : String
  count : ℕ
  lat : String
  long : String
  nameAddress : String
deriving Repr, DecidableEq

/-- A center record, as produced by `read_tsv` from `centers.tsv`.
`capacity` is the parsed integer capacity, non-negative by the data
model. -/
structure Center where
  cscode : String
  name : String
  address : String
  capacity : ℕ
  lat : String
  long : String
deriving Repr, DecidableEq

/-- The dictionary built by `center_to_dict` inside
`centers_within_distance`: a center enriched with its distance to the
school under consideration. -/
structure Candidate where
  cscode : String
  name : String
  address : String
  capacity : ℕ
  lat : String
  long : String
  distance_km : ℚ
deriving Repr, DecidableEq

/-- Abstraction of `haversine_distance` composed with the float parsing of
the coordinate strings: a total function from a school and a center to a
distance.  All theorems hold for every such function. -/
def DistFn : Type := School → Center → ℚ

/-- Abstraction of the aggregated preference table `prefs` read by
`read_prefs`, accessed through `get_pref`: school code and center code to
integer score, with absent pairs already resolved to 0. -/
def PrefFn : Type := String → String → ℤ

/-- Abstraction of the stream of `random.uniform(1, 5)` draws consumed by
`sort_key`, indexed by the position of the element in the list being
sorted. -/
def JitterFn : Type := ℕ → ℚ

/-- `center_to_dict(c, distance)` from `centers_within_distance`. -/
def center_to_dict (c : Center) (distance : ℚ) : Candidate :=
  { cscode := c.cscode
    name := c.name
    address := c.address
    capacity := c.capacity
    lat := c.lat
    long := c.long
    distance_km := distance }

/-- `sort_key(c)` from `centers_within_distance`:
`c[distance_km] * random.uniform(1, 5) - get_pref(school[scode], c[cscode]) * 100`,
with the random draw passed in as `j`. -/
def sort_key (pref : PrefFn) (school : School) (j : ℚ) (c : Candidate) : ℚ :=
  c.distance_km * j - (pref school.scode c.cscode : ℚ) * 100

/-- The `within_distance` list built by the loop of
`centers_within_distance`: centers other than the school itself whose
distance is at most the threshold and whose preference score is strictly
above `PREF_CUTOFF`, in input order, each converted by `center_to_dict`. -/
def withinList (dist : DistFn) (pref : PrefFn) (school : School)
    (centers : List Center) (distance_threshold : ℚ) : List Candidate :=
  (centers.filter (fun c =>
      decide (school.scode ≠ c.cscode ∧ dist school c ≤ distance_threshold ∧
        pref school.scode c.cscode > PREF_CUTOFF))).map
    (fun c => center_to_dict c (dist school c))

/-- One iteration of the `nearest_center` / `nearest_distance` tracking of
the loop of `centers_within_distance`: skip a center sharing the school's
code, otherwise keep the first strictly-closest center seen so far. -/
def nearestStep (dist : DistFn) (school : School)
    (acc : Option (Center × ℚ)) (c : Center) : Option (Center × ℚ) :=
  if school.scode = c.cscode then acc
  else
    match acc with
    | none => some (c, dist school c)
    | some (_, nd) =>
        if dist school c < nd then some (c, dist school c) else acc

/-- The `nearest_center` / `nearest_distance` tracking of the loop of
`centers_within_distance`, or `none` when every center is skipped (in the
source that leaves `nearest_center = None` and the fallback branch raises;
see `centers_within_distance`). -/
def nearestFold (dist : DistFn) (school : School) (centers : List Center) :
    Option (Center × ℚ) :=
  centers.foldl (nearestStep dist school) none

/-- `sorted(within_distance, key=sort_key)`: each element is keyed with its
own fresh random draw (`jitter i` for the element at position `i`) and the
list is sorted by the resulting numeric key, keeping the stable order of
equal keys (the source relies on Python's stable sort; a stable insertion
sort is used here, and no claim depends on the order of equal keys). -/
def sortCandidates (pref : PrefFn) (jitter : JitterFn) (school : School)
    (l : List Candidate) : List Candidate :=
  (l.enum.insertionSort (fun a b =>
      sort_key pref school (jitter a.1) a.2 ≤
        sort_key pref school (jitter b.1) b.2)).map Prod.snd

/-- `centers_within_distance(school, centers, distance_threshold)`.
Returns `some []` when the school has an empty latitude or longitude;
otherwise returns the sorted `within_distance` list when it is non-empty,
and the single nearest center when it is empty.  When additionally no
non-self center exists at all, the source subscripts `None` and raises;
that failure is modelled by `none`. -/
def centers_within_distance (dist : DistFn) (pref : PrefFn) (jitter : JitterFn)
    (school : School) (centers : List Center) (distance_threshold : ℚ) :
    Option (List Candidate) :=
  if school.lat.length = 0 ∨ school.long.length = 0 then
    some []
  else
    if (withinList dist pref school centers distance_threshold).length > 0 then
      some (sortCandidates pref jitter school
        (withinList dist pref school centers distance_threshold))
    else
      match nearestFold dist school centers with
      | some (c, d) => some [center_to_dict c d]
      | none => none

/-- `calc_per_center(count)`: 100 when `count ≤ 400`, else 200. -/
def calc_per_center (count : ℤ) : ℤ :=
  if count ≤ 400 then 100 else 200

/-- The module-level `allocations` dictionary of dictionaries, as a
function: `allocations s c` is `some v` when `allocations[s][c] = v` in the
source, `none` when the key pair is absent. -/
def Allocations : Type := String → String → Option ℤ

/-- `allocate(scode, cscode, count)`: create the entry when the pair is
absent, otherwise add `count` to the stored value.  The three branches of
the source (`scode` absent / `cscode` absent / both present) collapse to a
single update of the curried function. -/
def allocate (a : Allocations) (scode cscode : String) (count : ℤ) :
    Allocations :=
  fun s c =>
    if s = scode ∧ c = cscode then some ((a scode cscode).getD 0 + count)
    else a s c

/-- `is_allocated(scode1, scode2)`: whether the entry
`allocations[scode1][scode2]` exists. -/
def is_allocated (a : Allocations) (scode1 scode2 : String) : Bool :=
  (a scode1 scode2).isSome

/-- One call to `allocate` performed by `allocate_to_centers`, as an
instrumentation record (not present in the source): the school on whose
behalf the allocation is made, the center code the amount is recorded
against in `allocations` (`allocate_center_code`), the center code whose
`remaining_cap` entry is decremented (`center_code` of the loop iteration),
the amount, and the `stretch` flag of the call. -/
structure AllocEvent where
  scode : String
  recorded : String
  charged : String
  amount : ℤ
  stretch : Bool
deriving Repr, DecidableEq

/-- The mutable state of one `allocate_to_centers` call: the running
`to_allot`, the module-level `allocations` map, the `remaining_cap`
dictionary (a total function on codes), the local `allocated_centers`
dictionary as an insertion-ordered association list, and the
instrumentation log of `allocate` calls. -/
structure LoopState where
  to_allot : ℤ
  allocations : Allocations
  remaining_cap : String → ℤ
  allocated_centers : List (String × Candidate)
  events : List AllocEvent

/-- Python dictionary insertion on an insertion-ordered association list:
overwrite in place when the key exists, append otherwise. -/
def dictInsert (l : List (String × Candidate)) (k : String) (v : Candidate) :
    List (String × Candidate) :=
  if l.any (fun p => p.1 = k) then
    l.map (fun p => if p.1 = k then (k, v) else p)
  else l ++ [(k, v)]

/-- The body of the `for center in centers` loop of `allocate_to_centers`.
`firstCode` is the code of `centers[0]` of the call (read only when the
small-leftover redirect fires, which requires `allocated_centers` to be
non-empty and hence the candidate list to be non-empty); `per_center` is
`calc_per_center` of the call's initial `to_allot`.  The `writer.writerow`
trace output at the top of the loop body is pure diagnostics and is not
modelled. -/
def allocStep (school : School) (firstCode : String) (per_center : ℤ)
    (stretch : Bool) (st : LoopState) (center : Candidate) : LoopState :=
  let school_code := school.scode
  let center_code := center.cscode
  if is_allocated st.allocations center_code school_code then st
  else
    let centers_cap_left := st.remaining_cap center_code
    -- In the stretch branch the source rebinds `centers_cap_left` to
    -- `stretched_capacity` before the admission test; `cap_check` is the
    -- value the admission test actually compares against.
    -- `math.floor(int(capacity) * 0.02 + centers_cap_left)` equals
    -- `capacity / 50 + centers_cap_left` (natural-number division) for the
    -- non-negative integer capacities of the data model; see
    -- `stretched_capacity_eq_floor` below.
    let cap_check :=
      if stretch then ((center.capacity / 50 : ℕ) : ℤ) + centers_cap_left
      else centers_cap_left
    let next_allot :=
      if stretch then min st.to_allot (max cap_check MIN_STUDENT_IN_CENTER)
      else
        min st.to_allot
          (min per_center (max centers_cap_left MIN_STUDENT_IN_CENTER))
    if st.to_allot > 0 ∧ next_allot > 0 ∧ cap_check ≥ next_allot then
      let redirect := next_allot < MIN_STUDENT_IN_CENTER ∧
        st.allocated_centers ≠ []
      let allocate_center_code := if redirect then firstCode else center_code
      { to_allot := st.to_allot - next_allot
        allocations :=
          allocate st.allocations school_code allocate_center_code next_allot
        remaining_cap := fun k =>
          if k = center_code then st.remaining_cap k - next_allot
          else st.remaining_cap k
        allocated_centers :=
          if redirect then st.allocated_centers
          else dictInsert st.allocated_centers center_code center
        events := st.events ++
          [⟨school_code, allocate_center_code, center_code, next_allot, stretch⟩] }
    else st

/-- `allocate_to_centers(centers, school, to_allot, remaining_cap, stretch)`.
The module-level `allocations` map and the instrumentation log are threaded
explicitly; the result packages the final `to_allot`, the returned
`allocated_centers` and the updated shared state. -/
def allocate_to_centers (centers : List Candidate) (school : School)
    (to_allot : ℤ) (allocations : Allocations) (remaining_cap : String → ℤ)
    (events : List AllocEvent) (stretch : Bool) : LoopState :=
  let per_center := calc_per_center to_allot
  let firstCode :=
    match centers with
    | [] => ""
    | c :: _ => c.cscode
  centers.foldl (allocStep school firstCode per_center stretch)
    { to_allot := to_allot
      allocations := allocations
      remaining_cap := remaining_cap
      allocated_centers := []
      events := events }

/-- One row of the allocation output file `school-center.tsv`:
school code, school name, center code, center name, allocated amount,
distance. -/
structure Row where
  scode : String
  school : String
  cscode : String
  center : String
  allocation : ℤ
  distance_km : ℚ
deriving Repr, DecidableEq

/-- The run-wide mutable state of the main loop: the `allocations` map, the
`centers_remaining_cap` dictionary, the `remaining` counter of unassigned
students, the rows written to the allocation output file, and the
instrumentation log. -/
structure RunState where
  allocations : Allocations
  centers_remaining_cap : String → ℤ
  remaining : ℤ
  rows : List Row
  events : List AllocEvent

/-- The tail of one main-loop iteration, after the allocation call(s):
write one allocation row per entry of the (final) `allocated_centers`,
and add any positive leftover to `remaining`. -/
def finishSchool (s : School) (st : RunState) (r : LoopState) : RunState :=
  { allocations := r.allocations
    centers_remaining_cap := r.remaining_cap
    remaining := if r.to_allot > 0 then st.remaining + r.to_allot else st.remaining
    rows := st.rows ++ r.allocated_centers.map (fun p =>
      { scode := s.scode
        school := s.nameAddress
        cscode := p.2.cscode
        center := p.2.name
        allocation := (r.allocations s.scode p.2.cscode).getD 0
        distance_km := p.2.distance_km })
    events := r.events }

/-- The first, non-stretch call of the main loop:
`allocate_to_centers(centers_for_school, s, int(s[count]), centers_remaining_cap)`. -/
def pass1 (st : RunState) (s : School)
    (centers_for_school : List Candidate) : LoopState :=
  allocate_to_centers centers_for_school s (s.count : ℤ) st.allocations
    st.centers_remaining_cap st.events false

/-- One iteration of the `for s in schools` main loop: candidate selection
at the preferred threshold and a first `allocate_to_centers` call without
stretch.  When a remainder is left, the source computes the expanded
candidate set and then calls `allocate_to_centers` with the keyword
argument `stretch_capacity=True` — but the parameter is named `stretch`,
so that call raises `TypeError: allocate_to_centers() got an unexpected
keyword argument` and the run halts.  The uncaught exception is modelled
by `none`: the expanded candidate selection is still evaluated (it runs,
and can itself fail, before the broken call), and the branch then yields
`none` unconditionally.  `j1` and `j2` are the jitter draws consumed by
the two candidate-selection calls. -/
def processSchool (dist : DistFn) (pref : PrefFn) (j1 j2 : JitterFn)
    (centers : List Center) (st : RunState) (s : School) : Option RunState := do
  let centers_for_school ←
    centers_within_distance dist pref j1 s centers PREF_DISTANCE_THRESHOLD
  let r1 := pass1 st s centers_for_school
  let r ←
    if r1.to_allot > 0 then do
      let _expanded_centers ←
        centers_within_distance dist pref j2 s centers ABS_DISTANCE_THRESHOLD
      -- `allocate_to_centers(expanded_centers, s, to_allot,
      -- centers_remaining_cap, stretch_capacity=True)` raises TypeError.
      none
    else
      pure r1
  pure (finishSchool s st r)

/-- The main loop over the (already sorted) list of schools.  `jit i` is
the jitter stream consumed by the i-th candidate-selection call of the run
(two potential calls per school). -/
def runSchools (dist : DistFn) (pref : PrefFn) (jit : ℕ → JitterFn)
    (centers : List Center) : List School → ℕ → RunState → Option RunState
  | [], _, st => some st
  | s :: rest, i, st => do
      let st' ← processSchool dist pref (jit (2 * i)) (jit (2 * i + 1))
        centers st s
      runSchools dist pref jit centers rest (i + 1) st'

/-- One entry of the dictionary comprehension building
`centers_remaining_cap`. -/
def capUpd (f : String → ℤ) (c : Center) : String → ℤ :=
  fun k => if k = c.cscode then (c.capacity : ℤ) else f k

/-- `centers_remaining_cap = {c[cscode]: int(c[capacity]) for c in centers}`:
later duplicates overwrite earlier ones; absent codes are mapped to 0
(the source would raise a KeyError, but such codes are never looked up
because every candidate comes from `centers`). -/
def initCap (centers : List Center) : String → ℤ :=
  centers.foldl capUpd (fun _ => 0)

/-- The run state at the start of the main loop: empty `allocations`,
full capacities, `remaining = 0`. -/
def initState (centers : List Center) : RunState :=
  { allocations := fun _ _ => none
    centers_remaining_cap := initCap centers
    remaining := 0
    rows := []
    events := [] }

/-- The whole run on already-loaded inputs. -/
def runAll (dist : DistFn) (pref : PrefFn) (jit : ℕ → JitterFn)
    (centers : List Center) (schools : List School) : Option RunState :=
  runSchools dist pref jit centers schools 0 (initState centers)

/-- Sum of the amounts of a list of allocation events. -/
def sumAmounts (events : List AllocEvent) : ℤ :=
  (events.map (fun e => e.amount)).sum

/-- Total amount charged against a center's capacity ledger: the sum of the
amounts by which the events decremented `remaining_cap` at code `k`. -/
def chargedSum (events : List AllocEvent) (k : String) : ℤ :=
  sumAmounts (events.filter (fun e => e.charged = k))

/-- Total amount recorded against a center in the `allocations` map: the
sum of the amounts of the `allocate` calls whose target code is `k`. -/
def recordedSum (events : List AllocEvent) (k : String) : ℤ :=
  sumAmounts (events.filter (fun e => e.recorded = k))

/-- Whether some event charged center code `k` under stretch. -/
def stretchCharged (events : List AllocEvent) (k : String) : Bool :=
  events.any (fun e => e.charged = k ∧ e.stretch)

/-! ## Helper lemmas -/

/-- The natural-number division used in `allocStep` is exactly the
`math.floor` of the source: for a non-negative integer capacity and an
integer running capacity, `floor(capacity * 0.02 + cap_left)` equals
`capacity / 50 + cap_left`. -/
theorem stretched_capacity_eq_floor (capacity : ℕ) (r : ℤ) :
    ((capacity / 50 : ℕ) : ℤ) + r =
      ⌊(capacity : ℚ) * STRETCH_CAPACITY_FACTOR + (r : ℚ)⌋ := by
  rw [STRETCH_CAPACITY_FACTOR,
    show (capacity : ℚ) * (1 / 50) = ((capacity : ℕ) : ℚ) / ((50 : ℕ) : ℚ) by
      push_cast; ring,
    Int.floor_add_int, Rat.floor_natCast_div_natCast, Int.natCast_div]

theorem sumAmounts_append (l₁ l₂ : List AllocEvent) :
    sumAmounts (l₁ ++ l₂) = sumAmounts l₁ + sumAmounts l₂ := by
  simp [sumAmounts]

theorem chargedSum_append (l₁ l₂ : List AllocEvent) (k : String) :
    chargedSum (l₁ ++ l₂) k = chargedSum l₁ k + chargedSum l₂ k := by
  simp [chargedSum, sumAmounts, List.filter_append]

theorem recordedSum_append (l₁ l₂ : List AllocEvent) (k : String) :
    recordedSum (l₁ ++ l₂) k = recordedSum l₁ k + recordedSum l₂ k := by
  simp [recordedSum, sumAmounts, List.filter_append]

theorem chargedSum_single (e : AllocEvent) (k : String) :
    chargedSum [e] k = if e.charged = k then e.amount else 0 := by
  by_cases h : e.charged = k <;> simp [chargedSum, sumAmounts, h]

theorem stretchCharged_append (l₁ l₂ : List AllocEvent) (k : String) :
    stretchCharged (l₁ ++ l₂) k =
      (stretchCharged l₁ k || stretchCharged l₂ k) := by
  simp [stretchCharged]

/-- Case analysis of one loop iteration of `allocate_to_centers`: either the
state is unchanged (guard skip or failed admission test), or exactly one
allocation happens, with a positive amount bounded by the running
`to_allot` and by the admission capacity of the branch taken. -/
theorem allocStep_cases (school : School) (fc : String) (pc : ℤ) (str : Bool)
    (st : LoopState) (c : Candidate) :
    allocStep school fc pc str st c = st ∨
    ∃ next rc acs,
      0 < next ∧ next ≤ st.to_allot ∧ 0 < st.to_allot ∧
      (rc = c.cscode ∨ rc = fc) ∧
      (str = false → next ≤ st.remaining_cap c.cscode) ∧
      (str = true → next ≤ ((c.capacity / 50 : ℕ) : ℤ) + st.remaining_cap c.cscode) ∧
      allocStep school fc pc str st c =
        { to_allot := st.to_allot - next
          allocations := allocate st.allocations school.scode rc next
          remaining_cap := fun k =>
            if k = c.cscode then st.remaining_cap k - next else st.remaining_cap k
          allocated_centers := acs
          events := st.events ++ [⟨school.scode, rc, c.cscode, next, str⟩] } := by
  simp only [allocStep]
  split_ifs
  all_goals try exact Or.inl rfl
  · rename_i hguard hstr hadm hred
    exact Or.inr ⟨_, fc, st.allocated_centers, hadm.2.1, min_le_left _ _,
      hadm.1, Or.inr rfl,
      fun h => absurd (h ▸ hstr) (by simp), fun _ => hadm.2.2, rfl⟩
  · rename_i hguard hstr hadm hred
    exact Or.inr ⟨_, c.cscode, dictInsert st.allocated_centers c.cscode c,
      hadm.2.1, min_le_left _ _, hadm.1, Or.inl rfl,
      fun h => absurd (h ▸ hstr) (by simp), fun _ => hadm.2.2, rfl⟩
  · rename_i hguard hstr hadm hred
    exact Or.inr ⟨_, fc, st.allocated_centers, hadm.2.1, min_le_left _ _,
      hadm.1, Or.inr rfl, fun _ => hadm.2.2, fun h => absurd h hstr, rfl⟩
  · rename_i hguard hstr hadm hred
    exact Or.inr ⟨_, c.cscode, dictInsert st.allocated_centers c.cscode c,
      hadm.2.1, min_le_left _ _, hadm.1, Or.inl rfl,
      fun _ => hadm.2.2, fun h => absurd h hstr, rfl⟩

theorem stretchCharged_single (e : AllocEvent) (k : String) :
    stretchCharged [e] k = decide (e.charged = k ∧ e.stretch = true) := by
  simp [stretchCharged]

/-- The guard of the loop: when `allocations[center_code][school_code]`
exists — the reversed pair, in which the center code plays the school role —
the iteration changes nothing. -/
theorem allocStep_guard_skip (school : School) (fc : String) (pc : ℤ)
    (str : Bool) (st : LoopState) (c : Candidate)
    (h : is_allocated st.allocations c.cscode school.scode = true) :
    allocStep school fc pc str st c = st := by
  simp only [allocStep, h, if_pos]

/-- Generic preservation of an invariant along the candidate loop. -/
theorem foldl_allocStep_inv {I : LoopState → Prop} {P : Candidate → Prop}
    (school : School) (fc : String) (pc : ℤ) (str : Bool)
    (h : ∀ st c, P c → I st → I (allocStep school fc pc str st c)) :
    ∀ (l : List Candidate) (st : LoopState), (∀ c ∈ l, P c) → I st →
      I (l.foldl (allocStep school fc pc str) st) := by
  intro l
  induction l with
  | nil => intro st _ hI; exact hI
  | cons c l ih =>
      intro st hP hI
      simp only [List.foldl_cons]
      exact ih _ (fun c' hc' => hP c' (List.mem_cons_of_mem _ hc'))
        (h st c (hP c (List.mem_cons_self _ _)) hI)

theorem allocStep_toAllot_account (school : School) (fc : String) (pc : ℤ)
    (str : Bool) (st : LoopState) (c : Candidate) :
    (allocStep school fc pc str st c).to_allot +
        sumAmounts (allocStep school fc pc str st c).events =
      st.to_allot + sumAmounts st.events := by
  rcases allocStep_cases school fc pc str st c with h | ⟨next, rc, acs, _, _, _, _, _, _, h⟩
  · rw [h]
  · rw [h, sumAmounts_append]
    have hone : sumAmounts [⟨school.scode, rc, c.cscode, next, str⟩] = next := by
      simp [sumAmounts]
    rw [hone]
    ring

theorem allocStep_toAllot_le (school : School) (fc : String) (pc : ℤ)
    (str : Bool) (st : LoopState) (c : Candidate) :
    (allocStep school fc pc str st c).to_allot ≤ st.to_allot ∧
      (0 ≤ st.to_allot → 0 ≤ (allocStep school fc pc str st c).to_allot) := by
  rcases allocStep_cases school fc pc str st c with h | ⟨next, rc, acs, h0, h1, _, _, _, _, h⟩
  · rw [h]; exact ⟨le_refl _, fun h => h⟩
  · rw [h]
    constructor
    · simpa using le_of_lt h0
    · intro _
      simpa using h1

theorem allocStep_events_append (school : School) (fc : String) (pc : ℤ)
    (str : Bool) (st : LoopState) (c : Candidate) :
    ∃ new, (allocStep school fc pc str st c).events = st.events ++ new ∧
      ∀ e ∈ new, e.scode = school.scode ∧ e.stretch = str ∧ 0 < e.amount ∧
        e.charged = c.cscode ∧ (e.recorded = c.cscode ∨ e.recorded = fc) := by
  rcases allocStep_cases school fc pc str st c with h | ⟨next, rc, acs, h0, _, _, hrc, _, _, h⟩
  · exact ⟨[], by rw [h, List.append_nil], by simp⟩
  · refine ⟨[⟨school.scode, rc, c.cscode, next, str⟩], by rw [h], ?_⟩
    intro e he
    rw [List.mem_singleton] at he
    subst he
    exact ⟨rfl, rfl, h0, rfl, hrc⟩

theorem allocStep_cap_account (base : String → ℤ) (school : School)
    (fc : String) (pc : ℤ) (str : Bool) (st : LoopState) (c : Candidate)
    (hI : ∀ k, st.remaining_cap k = base k - chargedSum st.events k) :
    ∀ k, (allocStep school fc pc str st c).remaining_cap k =
      base k - chargedSum (allocStep school fc pc str st c).events k := by
  rcases allocStep_cases school fc pc str st c with h | ⟨next, rc, acs, _, _, _, _, _, _, h⟩
  · rw [h]; exact hI
  · rw [h]
    intro k
    have hacc := hI k
    simp only [chargedSum_append, chargedSum_single]
    by_cases hk : k = c.cscode
    · subst hk
      simp [hacc]
      omega
    · simp [hk, Ne.symm hk, hacc]

/-- Preservation of the two capacity bounds: a center never charged under
stretch keeps a non-negative remaining capacity, and in every case the
remaining capacity stays at or above the negated stretch bonus
`capacity / 50`. -/
theorem allocStep_cap_bound (centers : List Center) (school : School)
    (fc : String) (pc : ℤ) (str : Bool) (st : LoopState) (c : Candidate)
    (hc : ∀ c0 ∈ centers, c0.cscode = c.cscode → c0.capacity = c.capacity)
    (hI : ∀ c0 ∈ centers,
      (stretchCharged st.events c0.cscode = false → 0 ≤ st.remaining_cap c0.cscode) ∧
      -(((c0.capacity / 50 : ℕ) : ℤ)) ≤ st.remaining_cap c0.cscode) :
    ∀ c0 ∈ centers,
      (stretchCharged (allocStep school fc pc str st c).events c0.cscode = false →
        0 ≤ (allocStep school fc pc str st c).remaining_cap c0.cscode) ∧
      -(((c0.capacity / 50 : ℕ) : ℤ)) ≤
        (allocStep school fc pc str st c).remaining_cap c0.cscode := by
  rcases allocStep_cases school fc pc str st c with h | ⟨next, rc, acs, h0, h1, _, _, hns, hs, h⟩
  · rw [h]; exact hI
  · rw [h]
    intro c0 hc0
    simp only [stretchCharged_append, stretchCharged_single]
    by_cases hk : c0.cscode = c.cscode
    · have hcap : c0.capacity = c.capacity := hc c0 hc0 hk
      constructor
      · intro hno
        rw [Bool.or_eq_false_iff] at hno
        have hno2 := hno.2
        simp only [hk, if_pos]
        cases str with
        | false =>
            have := hns rfl
            omega
        | true =>
            exfalso
            simp [hk.symm] at hno2
      · simp only [hk, if_pos]
        cases str with
        | false =>
            have := hns rfl
            have hb : (0 : ℤ) ≤ ((c0.capacity / 50 : ℕ) : ℤ) := Int.natCast_nonneg _
            omega
        | true =>
            have := hs rfl
            rw [hcap]
            omega
    · have h2 := hI c0 hc0
      constructor
      · intro hno
        rw [Bool.or_eq_false_iff] at hno
        simp only [hk, if_neg, if_false]
        exact h2.1 hno.1
      · simp only [hk, if_neg, if_false]
        exact h2.2

/-- Non-stretch iterations keep the whole capacity ledger non-negative:
the admission test requires the remaining capacity to cover the amount
before it is decremented. -/
theorem allocStep_cap_nonneg (school : School) (fc : String) (pc : ℤ)
    (st : LoopState) (c : Candidate)
    (hI : ∀ k, 0 ≤ st.remaining_cap k) :
    ∀ k, 0 ≤ (allocStep school fc pc false st c).remaining_cap k := by
  rcases allocStep_cases school fc pc false st c with h | ⟨next, rc, acs, _, _, _, _, hns, _, h⟩
  · rw [h]; exact hI
  · rw [h]
    intro k
    by_cases hk : k = c.cscode
    · subst hk
      have := hns rfl
      simp only [if_pos rfl]
      omega
    · simp only [hk, if_neg, if_false]
      exact hI k

theorem nearestStep_self (dist : DistFn) (school : School)
    (acc : Option (Center × ℚ)) (c : Center)
    (h : school.scode = c.cscode) :
    nearestStep dist school acc c = acc := by
  simp [nearestStep, h]

theorem nearestStep_none (dist : DistFn) (school : School) (c : Center)
    (h : ¬school.scode = c.cscode) :
    nearestStep dist school none c = some (c, dist school c) := by
  simp [nearestStep, h]

theorem nearestStep_some_lt (dist : DistFn) (school : School)
    (n0 : Center) (nd : ℚ) (c : Center) (h : ¬school.scode = c.cscode)
    (hlt : dist school c < nd) :
    nearestStep dist school (some (n0, nd)) c = some (c, dist school c) := by
  simp [nearestStep, h, hlt]

theorem nearestStep_some_ge (dist : DistFn) (school : School)
    (n0 : Center) (nd : ℚ) (c : Center) (h : ¬school.scode = c.cscode)
    (hlt : ¬dist school c < nd) :
    nearestStep dist school (some (n0, nd)) c = some (n0, nd) := by
  simp [nearestStep, h, hlt]

/-- Specification of the nearest-center fold relative to an already
processed prefix `cs0`: a `some` result is a non-self member with the
recorded distance, minimal among all non-self centers seen; a `none`
result means every center seen shares the school's code. -/
theorem nearestFold_go (dist : DistFn) (school : School) :
    ∀ (l : List Center) (acc : Option (Center × ℚ)) (cs0 : List Center),
      (∀ pr, acc = some pr → pr.1 ∈ cs0 ∧ school.scode ≠ pr.1.cscode ∧
        pr.2 = dist school pr.1 ∧
        ∀ c ∈ cs0, school.scode ≠ c.cscode → pr.2 ≤ dist school c) →
      (acc = none → ∀ c ∈ cs0, school.scode = c.cscode) →
      (∀ pr, l.foldl (nearestStep dist school) acc = some pr →
        pr.1 ∈ cs0 ++ l ∧ school.scode ≠ pr.1.cscode ∧
        pr.2 = dist school pr.1 ∧
        ∀ c ∈ cs0 ++ l, school.scode ≠ c.cscode → pr.2 ≤ dist school c) ∧
      (l.foldl (nearestStep dist school) acc = none →
        ∀ c ∈ cs0 ++ l, school.scode = c.cscode) := by
  intro l
  induction l with
  | nil =>
      intro acc cs0 hsome hnone
      constructor
      · intro pr hpr
        have h := hsome pr hpr
        simpa using h
      · intro h c hc
        exact hnone h c (by simpa using hc)
  | cons c l ih =>
      intro acc cs0 hsome hnone
      have hstep :
          (∀ pr, nearestStep dist school acc c = some pr →
            pr.1 ∈ cs0 ++ [c] ∧ school.scode ≠ pr.1.cscode ∧
            pr.2 = dist school pr.1 ∧
            ∀ c' ∈ cs0 ++ [c], school.scode ≠ c'.cscode →
              pr.2 ≤ dist school c') ∧
          (nearestStep dist school acc c = none →
            ∀ c' ∈ cs0 ++ [c], school.scode = c'.cscode) := by
        by_cases hself : school.scode = c.cscode
        · rw [nearestStep_self dist school acc c hself]
          constructor
          · intro pr hpr
            obtain ⟨m1, m2, m3, m4⟩ := hsome pr hpr
            refine ⟨List.mem_append_left _ m1, m2, m3, ?_⟩
            intro c' hc' hne
            rcases List.mem_append.mp hc' with h | h
            · exact m4 c' h hne
            · rw [List.mem_singleton] at h
              subst h
              exact absurd hself hne
          · intro h c' hc'
            rcases List.mem_append.mp hc' with h' | h'
            · exact hnone h c' h'
            · rw [List.mem_singleton] at h'
              subst h'
              exact hself
        · rcases hacc : acc with _ | ⟨n0, nd⟩
          · rw [nearestStep_none dist school c hself]
            constructor
            · intro pr hpr
              rw [Option.some_inj] at hpr
              subst hpr
              refine ⟨List.mem_append_right _ (List.mem_singleton_self _),
                hself, rfl, ?_⟩
              intro c' hc' hne
              rcases List.mem_append.mp hc' with h | h
              · exact absurd (hnone hacc c' h) hne
              · rw [List.mem_singleton] at h
                subst h
                exact le_refl _
            · intro h
              exact absurd h (by simp)
          · obtain ⟨m1, m2, m3, m4⟩ := hsome (n0, nd) hacc
            by_cases hlt : dist school c < nd
            · rw [nearestStep_some_lt dist school n0 nd c hself hlt]
              constructor
              · intro pr hpr
                rw [Option.some_inj] at hpr
                subst hpr
                refine ⟨List.mem_append_right _ (List.mem_singleton_self _),
                  hself, rfl, ?_⟩
                intro c' hc' hne
                rcases List.mem_append.mp hc' with h | h
                · exact le_trans (le_of_lt hlt) (m4 c' h hne)
                · rw [List.mem_singleton] at h
                  subst h
                  exact le_refl _
              · intro h
                exact absurd h (by simp)
            · rw [nearestStep_some_ge dist school n0 nd c hself hlt]
              constructor
              · intro pr hpr
                rw [Option.some_inj] at hpr
                subst hpr
                refine ⟨List.mem_append_left _ m1, m2, m3, ?_⟩
                intro c' hc' hne
                rcases List.mem_append.mp hc' with h | h
                · exact m4 c' h hne
                · rw [List.mem_singleton] at h
                  subst h
                  exact le_of_not_lt hlt
              · intro h
                exact absurd h (by simp)
      have key := ih (nearestStep dist school acc c) (cs0 ++ [c])
        hstep.1 hstep.2
      rw [List.foldl_cons]
      constructor
      · intro pr hpr
        obtain ⟨m1, m2, m3, m4⟩ := key.1 pr hpr
        refine ⟨by simpa using m1, m2, m3, ?_⟩
        intro c' hc' hne
        exact m4 c' (by simpa using hc') hne
      · intro h c' hc'
        exact key.2 h c' (by simpa using hc')

/-- Specification of `nearestFold` on the full list. -/
theorem nearestFold_spec (dist : DistFn) (school : School)
    (centers : List Center) :
    (∀ pr, nearestFold dist school centers = some pr →
      pr.1 ∈ centers ∧ school.scode ≠ pr.1.cscode ∧
      pr.2 = dist school pr.1 ∧
      ∀ c ∈ centers, school.scode ≠ c.cscode → pr.2 ≤ dist school c) ∧
    (nearestFold dist school centers = none →
      ∀ c ∈ centers, school.scode = c.cscode) := by
  have h := nearestFold_go dist school centers none []
    (fun pr hpr => by exact absurd hpr (by simp)) (fun _ _ h => by simp at h)
  constructor
  · intro pr hpr
    obtain ⟨m1, m2, m3, m4⟩ := h.1 pr hpr
    exact ⟨by simpa using m1, m2, m3, fun c hc => m4 c (by simpa using hc)⟩
  · intro hn c hc
    exact h.2 hn c (by simpa using hc)

theorem withinList_mem (dist : DistFn) (pref : PrefFn) (school : School)
    (centers : List Center) (thr : ℚ) :
    ∀ cand ∈ withinList dist pref school centers thr,
      ∃ c ∈ centers, cand = center_to_dict c (dist school c) ∧
        school.scode ≠ c.cscode ∧ dist school c ≤ thr ∧
        pref school.scode c.cscode > PREF_CUTOFF := by
  intro cand hcand
  simp only [withinList, List.mem_map] at hcand
  obtain ⟨c, hc, rfl⟩ := hcand
  rw [List.mem_filter] at hc
  have hd := of_decide_eq_true hc.2
  exact ⟨c, hc.1, rfl, hd.1, hd.2.1, hd.2.2⟩

/-- Sorting with randomized keys only permutes the candidate list. -/
theorem sortCandidates_perm (pref : PrefFn) (jitter : JitterFn)
    (school : School) (l : List Candidate) :
    (sortCandidates pref jitter school l).Perm l := by
  unfold sortCandidates
  have h2 := (List.perm_insertionSort (fun a b =>
    sort_key pref school (jitter a.1) a.2 ≤
      sort_key pref school (jitter b.1) b.2) l.enum).map Prod.snd
  rw [List.enum_map_snd] at h2
  exact h2

/-- Every candidate returned by `centers_within_distance` is a non-self
center of the input list, tagged with its computed distance. -/
theorem centers_within_distance_mem (dist : DistFn) (pref : PrefFn)
    (jitter : JitterFn) (school : School) (centers : List Center) (thr : ℚ)
    (l : List Candidate)
    (h : centers_within_distance dist pref jitter school centers thr = some l) :
    ∀ cand ∈ l, ∃ c ∈ centers, cand = center_to_dict c (dist school c) ∧
      school.scode ≠ c.cscode := by
  intro cand hcand
  unfold centers_within_distance at h
  split at h
  · rw [Option.some_inj] at h
    subst h
    exact absurd hcand (List.not_mem_nil _)
  · split at h
    · rw [Option.some_inj] at h
      subst h
      have hmem := (sortCandidates_perm pref jitter school _).mem_iff.mp hcand
      obtain ⟨c, hc, heq, hne, _, _⟩ := withinList_mem dist pref school centers thr cand hmem
      exact ⟨c, hc, heq, hne⟩
    · split at h
      · rename_i c' d' hpr
        rw [Option.some_inj] at h
        subst h
        rw [List.mem_singleton] at hcand
        obtain ⟨m1, m2, m3, _⟩ := (nearestFold_spec dist school centers).1
          (c', d') hpr
        subst hcand
        exact ⟨c', m1, by rw [show d' = dist school c' from m3], m2⟩
      · exact absurd h (by simp)

/-- The loop of `allocate_to_centers` unfolded to its fold form, for any
first-candidate code `fc` agreeing with the head of the list. -/
theorem allocate_to_centers_eq_foldl (l : List Candidate) (school : School)
    (t0 : ℤ) (a0 : Allocations) (cap0 : String → ℤ) (e0 : List AllocEvent)
    (str : Bool) :
    allocate_to_centers l school t0 a0 cap0 e0 str =
      l.foldl
        (allocStep school
          (match l with
            | [] => ""
            | c :: _ => c.cscode)
          (calc_per_center t0) str)
        { to_allot := t0
          allocations := a0
          remaining_cap := cap0
          allocated_centers := []
          events := e0 } := rfl

/-- Accounting across one `allocate_to_centers` call: the events appended
by the call all belong to the calling school, carry the call's stretch
flag, have positive amounts, only name codes of candidate centers, and
their total equals the drop in `to_allot`; `to_allot` never increases and
never drops below zero. -/
theorem allocate_to_centers_spec (l : List Candidate) (school : School)
    (t0 : ℤ) (a0 : Allocations) (cap0 : String → ℤ) (e0 : List AllocEvent)
    (str : Bool) :
    ∃ new, (allocate_to_centers l school t0 a0 cap0 e0 str).events = e0 ++ new ∧
      (∀ e ∈ new, e.scode = school.scode ∧ e.stretch = str ∧ 0 < e.amount ∧
        e.charged ∈ l.map (fun c => c.cscode) ∧
        e.recorded ∈ l.map (fun c => c.cscode)) ∧
      (allocate_to_centers l school t0 a0 cap0 e0 str).to_allot +
        sumAmounts new = t0 ∧
      (allocate_to_centers l school t0 a0 cap0 e0 str).to_allot ≤ t0 ∧
      (0 ≤ t0 → 0 ≤ (allocate_to_centers l school t0 a0 cap0 e0 str).to_allot) := by
  rcases l with _ | ⟨c, l'⟩
  · exact ⟨[], by simp [allocate_to_centers], by simp,
      by simp [allocate_to_centers, sumAmounts], le_refl _, fun h => h⟩
  · have hunf : allocate_to_centers (c :: l') school t0 a0 cap0 e0 str =
        List.foldl (allocStep school c.cscode (calc_per_center t0) str)
          { to_allot := t0
            allocations := a0
            remaining_cap := cap0
            allocated_centers := []
            events := e0 } (c :: l') := rfl
    rw [hunf]
    set fc := c.cscode with hfc
    set pc := calc_per_center t0 with hpc
    set st0 : LoopState :=
      { to_allot := t0
        allocations := a0
        remaining_cap := cap0
        allocated_centers := []
        events := e0 } with hst0
    have hmem : ∀ cand ∈ c :: l', cand.cscode ∈ (c :: l').map
        (fun cd => cd.cscode) :=
      fun cand hcand => List.mem_map_of_mem _ hcand
    have hfcmem : fc ∈ (c :: l').map (fun cd => cd.cscode) :=
      List.mem_map_of_mem _ (List.mem_cons_self _ _)
    have hEv := @foldl_allocStep_inv
      (fun st => ∃ new, st.events = e0 ++ new ∧
        ∀ e ∈ new, e.scode = school.scode ∧ e.stretch = str ∧ 0 < e.amount ∧
          e.charged ∈ (c :: l').map (fun cd => cd.cscode) ∧
          e.recorded ∈ (c :: l').map (fun cd => cd.cscode))
      (fun cand => cand.cscode ∈ (c :: l').map (fun cd => cd.cscode))
      school fc pc str
      (by
        intro st cand hP ⟨new, hnew, hq⟩
        obtain ⟨new2, hnew2, hq2⟩ := allocStep_events_append school fc pc str st cand
        refine ⟨new ++ new2, by rw [hnew2, hnew, List.append_assoc], ?_⟩
        intro e he
        rcases List.mem_append.mp he with he | he
        · exact hq e he
        · obtain ⟨h1, h2, h3, h4, h5⟩ := hq2 e he
          refine ⟨h1, h2, h3, h4 ▸ hP, ?_⟩
          rcases h5 with h5 | h5
          · exact h5 ▸ hP
          · exact h5 ▸ hfcmem)
      (c :: l') st0 hmem ⟨[], by simp [hst0], by simp⟩
    have hSum := @foldl_allocStep_inv
      (fun st => st.to_allot + sumAmounts st.events = t0 + sumAmounts e0)
      (fun _ => True) school fc pc str
      (fun st cand _ hI => by
        dsimp only at hI ⊢
        rw [allocStep_toAllot_account school fc pc str st cand]; exact hI)
      (c :: l') st0 (fun _ _ => trivial) (by simp [hst0])
    have hLe := @foldl_allocStep_inv
      (fun st => st.to_allot ≤ t0)
      (fun _ => True) school fc pc str
      (fun st cand _ hI =>
        le_trans (allocStep_toAllot_le school fc pc str st cand).1 hI)
      (c :: l') st0 (fun _ _ => trivial) (le_refl _)
    obtain ⟨new, hnew, hq⟩ := hEv
    dsimp only at hSum hLe
    refine ⟨new, hnew, hq, ?_, hLe, ?_⟩
    · rw [hnew, sumAmounts_append] at hSum
      omega
    · intro ht0
      have hNN := @foldl_allocStep_inv
        (fun st => 0 ≤ st.to_allot)
        (fun _ => True) school fc pc str
        (fun st cand _ hI =>
          (allocStep_toAllot_le school fc pc str st cand).2 hI)
        (c :: l') st0 (fun _ _ => trivial) ht0
      exact hNN

/-- The capacity-ledger accounting is preserved across a whole
`allocate_to_centers` call: the remaining capacity of every code equals a
fixed baseline minus the total charged against that code so far. -/
theorem allocate_to_centers_cap_account (base : String → ℤ)
    (l : List Candidate) (school : School) (t0 : ℤ) (a0 : Allocations)
    (cap0 : String → ℤ) (e0 : List AllocEvent) (str : Bool)
    (hI : ∀ k, cap0 k = base k - chargedSum e0 k) :
    ∀ k, (allocate_to_centers l school t0 a0 cap0 e0 str).remaining_cap k =
      base k - chargedSum (allocate_to_centers l school t0 a0 cap0 e0 str).events k := by
  rw [allocate_to_centers_eq_foldl]
  exact @foldl_allocStep_inv
    (fun st => ∀ k, st.remaining_cap k = base k - chargedSum st.events k)
    (fun _ => True) school _ _ str
    (fun st cand _ hI' => allocStep_cap_account base school _ _ str st cand hI')
    l _ (fun _ _ => trivial) hI

/-- The capacity bounds are preserved across a whole `allocate_to_centers`
call, provided every candidate's capacity field agrees with the center list
on its code. -/
theorem allocate_to_centers_cap_bound (centers : List Center)
    (l : List Candidate) (school : School) (t0 : ℤ) (a0 : Allocations)
    (cap0 : String → ℤ) (e0 : List AllocEvent) (str : Bool)
    (hcand : ∀ c ∈ l, ∀ c0 ∈ centers, c0.cscode = c.cscode →
      c0.capacity = c.capacity)
    (hI : ∀ c0 ∈ centers,
      (stretchCharged e0 c0.cscode = false → 0 ≤ cap0 c0.cscode) ∧
      -(((c0.capacity / 50 : ℕ) : ℤ)) ≤ cap0 c0.cscode) :
    ∀ c0 ∈ centers,
      (stretchCharged (allocate_to_centers l school t0 a0 cap0 e0 str).events
          c0.cscode = false →
        0 ≤ (allocate_to_centers l school t0 a0 cap0 e0 str).remaining_cap
          c0.cscode) ∧
      -(((c0.capacity / 50 : ℕ) : ℤ)) ≤
        (allocate_to_centers l school t0 a0 cap0 e0 str).remaining_cap
          c0.cscode := by
  rw [allocate_to_centers_eq_foldl]
  exact @foldl_allocStep_inv
    (fun st => ∀ c0 ∈ centers,
      (stretchCharged st.events c0.cscode = false →
        0 ≤ st.remaining_cap c0.cscode) ∧
      -(((c0.capacity / 50 : ℕ) : ℤ)) ≤ st.remaining_cap c0.cscode)
    (fun cand => ∀ c0 ∈ centers, c0.cscode = cand.cscode →
      c0.capacity = cand.capacity)
    school _ _ str
    (fun st cand hP hI' =>
      allocStep_cap_bound centers school _ _ str st cand hP hI')
    l _ hcand hI

/-- The capacity ledger stays non-negative across a whole non-stretch
`allocate_to_centers` call. -/
theorem allocate_to_centers_cap_nonneg (l : List Candidate) (school : School)
    (t0 : ℤ) (a0 : Allocations) (cap0 : String → ℤ) (e0 : List AllocEvent)
    (hI : ∀ k, 0 ≤ cap0 k) :
    ∀ k, 0 ≤ (allocate_to_centers l school t0 a0 cap0 e0 false).remaining_cap k := by
  rw [allocate_to_centers_eq_foldl]
  exact @foldl_allocStep_inv
    (fun st => ∀ k, 0 ≤ st.remaining_cap k)
    (fun _ => True) school _ _ false
    (fun st cand _ hI' => allocStep_cap_nonneg school _ _ st cand hI')
    l _ (fun _ _ => trivial) hI

/-- Case analysis of one main-loop iteration: a successful result only
comes from the single-pass path — a positive first-pass remainder reaches
the broken stretch call and the iteration fails. -/
theorem processSchool_eq_some (dist : DistFn) (pref : PrefFn)
    (j1 j2 : JitterFn) (centers : List Center) (st : RunState) (s : School)
    (st' : RunState)
    (h : processSchool dist pref j1 j2 centers st s = some st') :
    ∃ l1, centers_within_distance dist pref j1 s centers
        PREF_DISTANCE_THRESHOLD = some l1 ∧
      ¬0 < (pass1 st s l1).to_allot ∧
      st' = finishSchool s st (pass1 st s l1) := by
  unfold processSchool at h
  simp only [Option.bind_eq_bind, Option.pure_def, Option.bind_eq_some,
    Option.some_inj] at h
  obtain ⟨l1, h1, h⟩ := h
  refine ⟨l1, h1, ?_⟩
  by_cases hpos : (pass1 st s l1).to_allot > 0
  · exfalso
    rw [if_pos hpos] at h
    rcases hc : centers_within_distance dist pref j2 s centers
        ABS_DISTANCE_THRESHOLD with _ | l2 <;>
      simp [hc, Option.bind_eq_bind] at h
  · rw [if_neg hpos] at h
    simp only [Option.bind_eq_bind, Option.pure_def, Option.bind_eq_some,
      Option.some_inj] at h
    obtain ⟨a, rfl, h⟩ := h
    exact ⟨hpos, h.symm⟩

/-- A positive first-pass remainder reaches the broken
`stretch_capacity=True` call of line 289 and the iteration raises. -/
theorem processSchool_halts_of_remainder (dist : DistFn) (pref : PrefFn)
    (j1 j2 : JitterFn) (centers : List Center) (st : RunState) (s : School)
    (l1 : List Candidate)
    (h1 : centers_within_distance dist pref j1 s centers
      PREF_DISTANCE_THRESHOLD = some l1)
    (hpos : 0 < (pass1 st s l1).to_allot) :
    processSchool dist pref j1 j2 centers st s = none := by
  simp only [processSchool, h1, Option.bind_eq_bind, Option.some_bind]
  rw [if_pos hpos]
  rcases hc : centers_within_distance dist pref j2 s centers
      ABS_DISTANCE_THRESHOLD with _ | l2 <;>
    simp [hc, Option.bind_eq_bind]

theorem foldl_capUpd_nonneg (l : List Center) :
    ∀ (f : String → ℤ), (∀ k, 0 ≤ f k) → ∀ k, 0 ≤ l.foldl capUpd f k := by
  induction l with
  | nil => intro f hf k; exact hf k
  | cons c rest ih =>
      intro f hf k
      refine ih (capUpd f c) ?_ k
      intro k'
      unfold capUpd
      split
      · exact Int.natCast_nonneg _
      · exact hf k'

theorem initCap_nonneg (centers : List Center) (k : String) :
    0 ≤ initCap centers k :=
  foldl_capUpd_nonneg centers (fun _ => 0) (fun _ => le_refl 0) k

theorem foldl_capUpd_not_mem (l : List Center) :
    ∀ (f : String → ℤ) (k : String), (∀ c ∈ l, c.cscode ≠ k) →
      l.foldl capUpd f k = f k := by
  induction l with
  | nil => intro f k _; rfl
  | cons c rest ih =>
      intro f k hk
      rw [List.foldl_cons, ih (capUpd f c) k
        (fun c' hc' => hk c' (List.mem_cons_of_mem _ hc'))]
      unfold capUpd
      rw [if_neg]
      intro hkc
      exact hk c (List.mem_cons_self _ _) hkc.symm

theorem foldl_capUpd_mem (l : List Center) :
    ∀ (f : String → ℤ), (l.map Center.cscode).Nodup → ∀ c0 ∈ l,
      l.foldl capUpd f c0.cscode = (c0.capacity : ℤ) := by
  induction l with
  | nil => intro f _ c0 hc0; exact absurd hc0 (List.not_mem_nil _)
  | cons c rest ih =>
      intro f hND c0 hc0
      rw [List.map_cons, List.nodup_cons] at hND
      rw [List.foldl_cons]
      rcases List.mem_cons.mp hc0 with h | h
      · subst h
        rw [foldl_capUpd_not_mem rest (capUpd f c0) c0.cscode
          (fun c' hc' hk => hND.1 (hk ▸ List.mem_map_of_mem _ hc'))]
        unfold capUpd
        rw [if_pos rfl]
      · exact ih (capUpd f c) hND.2 c0 h

/-- With pairwise-distinct center codes, the initial ledger maps each
center's code to its capacity. -/
theorem initCap_eq (centers : List Center)
    (hND : (centers.map Center.cscode).Nodup) (c0 : Center)
    (hc0 : c0 ∈ centers) : initCap centers c0.cscode = (c0.capacity : ℤ) :=
  foldl_capUpd_mem centers (fun _ => 0) hND c0 hc0

/-- Candidates produced by `centers_within_distance` agree with the center
list on capacities, provided center codes are pairwise distinct. -/
theorem centers_within_distance_consistent (dist : DistFn) (pref : PrefFn)
    (jitter : JitterFn) (school : School) (centers : List Center) (thr : ℚ)
    (l : List Candidate)
    (hND : (centers.map Center.cscode).Nodup)
    (h : centers_within_distance dist pref jitter school centers thr = some l) :
    ∀ c ∈ l, ∀ c0 ∈ centers, c0.cscode = c.cscode →
      c0.capacity = c.capacity := by
  intro cand hcand c0 hc0 hcode
  obtain ⟨c', hc', heq, _⟩ :=
    centers_within_distance_mem dist pref jitter school centers thr l h
      cand hcand
  subst heq
  have hcc : c0.cscode = c'.cscode := hcode
  have : c0 = c' := List.inj_on_of_nodup_map hND hc0 hc' hcc
  subst this
  rfl

/-- Candidate codes produced by `centers_within_distance` never equal the
school's own code. -/
theorem centers_within_distance_not_self (dist : DistFn) (pref : PrefFn)
    (jitter : JitterFn) (school : School) (centers : List Center) (thr : ℚ)
    (l : List Candidate)
    (h : centers_within_distance dist pref jitter school centers thr = some l) :
    ∀ c ∈ l, c.cscode ≠ school.scode := by
  intro cand hcand
  obtain ⟨c', _, heq, hne⟩ :=
    centers_within_distance_mem dist pref jitter school centers thr l h
      cand hcand
  subst heq
  exact fun hk => hne hk.symm

/-- The events appended by one main-loop iteration: all on behalf of the
processed school, with positive amounts, and never naming the school's own
code as recorded or charged center. -/
theorem processSchool_events (dist : DistFn) (pref : PrefFn)
    (j1 j2 : JitterFn) (centers : List Center) (st : RunState) (s : School)
    (st' : RunState)
    (h : processSchool dist pref j1 j2 centers st s = some st') :
    ∃ new, st'.events = st.events ++ new ∧
      ∀ e ∈ new, e.scode = s.scode ∧ 0 < e.amount ∧
        e.charged ≠ s.scode ∧ e.recorded ≠ s.scode := by
  obtain ⟨l1, h1, hpos, rfl⟩ :=
    processSchool_eq_some dist pref j1 j2 centers st s st' h
  have hl1 : ∀ k ∈ l1.map (fun c => c.cscode), k ≠ s.scode := by
    intro k hk
    rw [List.mem_map] at hk
    obtain ⟨cand, hcand, rfl⟩ := hk
    exact centers_within_distance_not_self dist pref j1 s centers
      PREF_DISTANCE_THRESHOLD l1 h1 cand hcand
  obtain ⟨new1, hnew1, hq1, _, _, _⟩ :=
    allocate_to_centers_spec l1 s (s.count : ℤ) st.allocations
      st.centers_remaining_cap st.events false
  refine ⟨new1, hnew1, ?_⟩
  intro e he
  obtain ⟨q1, _, q3, q4, q5⟩ := hq1 e he
  exact ⟨q1, q3, hl1 _ q4, hl1 _ q5⟩

/-- The ledger-accounting identity is preserved by one main-loop
iteration. -/
theorem processSchool_cap_account (base : String → ℤ) (dist : DistFn)
    (pref : PrefFn) (j1 j2 : JitterFn) (centers : List Center)
    (st : RunState) (s : School) (st' : RunState)
    (h : processSchool dist pref j1 j2 centers st s = some st')
    (hI : ∀ k, st.centers_remaining_cap k = base k - chargedSum st.events k) :
    ∀ k, st'.centers_remaining_cap k =
      base k - chargedSum st'.events k := by
  obtain ⟨l1, h1, hpos, rfl⟩ :=
    processSchool_eq_some dist pref j1 j2 centers st s st' h
  exact allocate_to_centers_cap_account base l1 s (s.count : ℤ)
    st.allocations st.centers_remaining_cap st.events false hI

/-- The capacity bounds are preserved by one main-loop iteration. -/
theorem processSchool_cap_bound (dist : DistFn) (pref : PrefFn)
    (j1 j2 : JitterFn) (centers : List Center) (st : RunState) (s : School)
    (st' : RunState)
    (hND : (centers.map Center.cscode).Nodup)
    (h : processSchool dist pref j1 j2 centers st s = some st')
    (hI : ∀ c0 ∈ centers,
      (stretchCharged st.events c0.cscode = false →
        0 ≤ st.centers_remaining_cap c0.cscode) ∧
      -(((c0.capacity / 50 : ℕ) : ℤ)) ≤ st.centers_remaining_cap c0.cscode) :
    ∀ c0 ∈ centers,
      (stretchCharged st'.events c0.cscode = false →
        0 ≤ st'.centers_remaining_cap c0.cscode) ∧
      -(((c0.capacity / 50 : ℕ) : ℤ)) ≤ st'.centers_remaining_cap c0.cscode := by
  obtain ⟨l1, h1, hpos, rfl⟩ :=
    processSchool_eq_some dist pref j1 j2 centers st s st' h
  exact allocate_to_centers_cap_bound centers l1 s (s.count : ℤ)
    st.allocations st.centers_remaining_cap st.events false
    (centers_within_distance_consistent dist pref j1 s centers
      PREF_DISTANCE_THRESHOLD l1 hND h1) hI

/-- The capacity ledger stays non-negative across one main-loop iteration:
successful iterations only perform the non-stretch first pass. -/
theorem processSchool_cap_nonneg (dist : DistFn) (pref : PrefFn)
    (j1 j2 : JitterFn) (centers : List Center) (st : RunState) (s : School)
    (st' : RunState)
    (h : processSchool dist pref j1 j2 centers st s = some st')
    (hI : ∀ k, 0 ≤ st.centers_remaining_cap k) :
    ∀ k, 0 ≤ st'.centers_remaining_cap k := by
  obtain ⟨l1, h1, hpos, rfl⟩ :=
    processSchool_eq_some dist pref j1 j2 centers st s st' h
  exact allocate_to_centers_cap_nonneg l1 s (s.count : ℤ) st.allocations
    st.centers_remaining_cap st.events hI

/-- Generic invariant transport along the whole run. -/
theorem runSchools_inv {I : RunState → Prop} (dist : DistFn) (pref : PrefFn)
    (jit : ℕ → JitterFn) (centers : List Center)
    (h : ∀ j1 j2 st s st',
      processSchool dist pref j1 j2 centers st s = some st' → I st → I st') :
    ∀ (schools : List School) (i : ℕ) (st : RunState) (F : RunState),
      runSchools dist pref jit centers schools i st = some F → I st → I F := by
  intro schools
  induction schools with
  | nil =>
      intro i st F hF hI
      unfold runSchools at hF
      rw [Option.some_inj] at hF
      subst hF
      exact hI
  | cons s rest ih =>
      intro i st F hF hI
      unfold runSchools at hF
      simp only [Option.bind_eq_bind, Option.bind_eq_some] at hF
      obtain ⟨st', h1, h2⟩ := hF
      exact ih (i + 1) st' F h2 (h _ _ st s st' h1 hI)

/-- A string of length zero is the empty string (the emptiness test used by
`centers_within_distance` on the coordinate fields). -/
theorem length_zero_eq_empty (s : String) (h : s.length = 0) : s = "" := by
  cases s with
  | mk data =>
      cases data with
      | nil => rfl
      | cons c cs =>
          exfalso
          simp [String.length] at h

/-- Run-level ledger accounting: at the end of any run, each code's
remaining capacity is its initial capacity minus everything charged against
it. -/
theorem runAll_cap_account (dist : DistFn) (pref : PrefFn)
    (jit : ℕ → JitterFn) (centers : List Center) (schools : List School)
    (F : RunState) (h : runAll dist pref jit centers schools = some F) :
    ∀ k, F.centers_remaining_cap k =
      initCap centers k - chargedSum F.events k := by
  refine @runSchools_inv
    (fun st => ∀ k, st.centers_remaining_cap k =
      initCap centers k - chargedSum st.events k)
    dist pref jit centers
    (fun j1 j2 st s st' hp hI =>
      processSchool_cap_account (initCap centers) dist pref j1 j2 centers
        st s st' hp hI)
    schools 0 (initState centers) F h ?_
  intro k
  simp [initState, chargedSum, sumAmounts]

/-- Run-level capacity bounds: a center never charged under stretch keeps a
non-negative remaining capacity; every center's remaining capacity stays at
or above the negated stretch bonus. -/
theorem runAll_cap_bound (dist : DistFn) (pref : PrefFn)
    (jit : ℕ → JitterFn) (centers : List Center) (schools : List School)
    (F : RunState) (hND : (centers.map Center.cscode).Nodup)
    (h : runAll dist pref jit centers schools = some F) :
    ∀ c0 ∈ centers,
      (stretchCharged F.events c0.cscode = false →
        0 ≤ F.centers_remaining_cap c0.cscode) ∧
      -(((c0.capacity / 50 : ℕ) : ℤ)) ≤ F.centers_remaining_cap c0.cscode := by
  refine @runSchools_inv
    (fun st => ∀ c0 ∈ centers,
      (stretchCharged st.events c0.cscode = false →
        0 ≤ st.centers_remaining_cap c0.cscode) ∧
      -(((c0.capacity / 50 : ℕ) : ℤ)) ≤ st.centers_remaining_cap c0.cscode)
    dist pref jit centers
    (fun j1 j2 st s st' hp hI =>
      processSchool_cap_bound dist pref j1 j2 centers st s st' hND hp hI)
    schools 0 (initState centers) F h ?_
  intro c0 hc0
  constructor
  · intro _
    exact initCap_nonneg centers c0.cscode
  · exact le_trans (neg_nonpos_of_nonneg (Int.natCast_nonneg _))
      (initCap_nonneg centers c0.cscode)

/-- Run-level non-negativity of the capacity ledger: the stretch branch is
unreachable in the source (line 289 raises before it could run), so every
completed run only performed guarded non-stretch decrements. -/
theorem runAll_cap_nonneg (dist : DistFn) (pref : PrefFn)
    (jit : ℕ → JitterFn) (centers : List Center) (schools : List School)
    (F : RunState) (h : runAll dist pref jit centers schools = some F) :
    ∀ k, 0 ≤ F.centers_remaining_cap k := by
  refine @runSchools_inv
    (fun st => ∀ k, 0 ≤ st.centers_remaining_cap k)
    dist pref jit centers
    (fun j1 j2 st s st' hp hI =>
      processSchool_cap_nonneg dist pref j1 j2 centers st s st' hp hI)
    schools 0 (initState centers) F h ?_
  intro k
  exact initCap_nonneg centers k

/-- Run-level self-exclusion: no event of a run records or charges an
allocation against the code of the school it is made for. -/
theorem runAll_events_not_self (dist : DistFn) (pref : PrefFn)
    (jit : ℕ → JitterFn) (centers : List Center) (schools : List School)
    (F : RunState) (h : runAll dist pref jit centers schools = some F) :
    ∀ e ∈ F.events, e.recorded ≠ e.scode ∧ e.charged ≠ e.scode := by
  refine @runSchools_inv
    (fun st => ∀ e ∈ st.events, e.recorded ≠ e.scode ∧ e.charged ≠ e.scode)
    dist pref jit centers ?_ schools 0 (initState centers) F h ?_
  · intro j1 j2 st s st' hp hI e he
    obtain ⟨new, hnew, hq⟩ :=
      processSchool_events dist pref j1 j2 centers st s st' hp
    rw [hnew] at he
    rcases List.mem_append.mp he with he | he
    · exact hI e he
    · obtain ⟨q1, _, q3, q4⟩ := hq e he
      rw [q1]
      exact ⟨q4, q3⟩
  · intro e he
    exact absurd he (List.not_mem_nil _)

/-! ## Concrete inputs used by counterexamples and witnesses -/

/-- A school of 1100 students with usable coordinates. -/
def exSchool1 : School := ⟨"S1", 1100, "27", "85", "School One"⟩

/-- A single center of capacity 1000. -/
def exCenter1 : Center := ⟨"C1", "Center One", "Kathmandu", 1000, "27", "85"⟩

/-- A distance function putting every center 1 km from every school. -/
def exDist : DistFn := fun _ _ => 1

/-- A neutral preference table. -/
def exPref : PrefFn := fun _ _ => 0

/-- A constant jitter stream (every `random.uniform(1, 5)` draw is 1). -/
def exJit : ℕ → JitterFn := fun _ _ => 1

/-- The candidate record `centers_within_distance` builds for `exCenter1`
at distance 1. -/
def exCand1 : Candidate := center_to_dict exCenter1 1

/-- A school of 10 students, used to fill center C0 first. -/
def exSchoolA : School := ⟨"A", 10, "27", "85", "School A"⟩

/-- A school of 106 students, processed second. -/
def exSchoolB : School := ⟨"B", 106, "27", "85", "School B"⟩

/-- A small center of capacity 10. -/
def exC0 : Center := ⟨"C0", "Center Zero", "Kathmandu", 10, "27", "85"⟩

/-- A center of capacity 100. -/
def exC1 : Center := ⟨"C1", "Center One", "Kathmandu", 100, "27", "85"⟩

/-- A center of capacity 50. -/
def exC2 : Center := ⟨"C2", "Center Two", "Kathmandu", 50, "27", "85"⟩

/-- Distances for the redirect scenario: school A is near only C0; school B
is within the preferred threshold of all three centers, closest to C0. -/
def exDistB : DistFn := fun s c =>
  if s.scode = "A" then (if c.cscode = "C0" then 1 else 3)
  else (if c.cscode = "C0" then 1 else 2)

/-- A school whose latitude field is empty. -/
def exSchoolNoGeo : School := ⟨"S9", 25, "", "85", "School NoGeo"⟩

/-- A distance function putting every center 10 km away (outside both
thresholds). -/
def exDistFar : DistFn := fun _ _ => 10

/-- A school of 500 students with usable coordinates. -/
def exSchoolC : School := ⟨"S3", 500, "27", "85", "School Three"⟩

/-- A single small center of capacity 30. -/
def exCenterSmall : Center := ⟨"C9", "Center Nine", "Kathmandu", 30, "27", "85"⟩

/-- Distances for the merge-redirect scenario: center C1 at 1 km, every
other center at 2 km, for every school. -/
def exDistC : DistFn := fun _ c => if c.cscode = "C1" then 1 else 2

set_option maxRecDepth 10000 in
theorem exRun3_isSome :
    (runAll exDistC exPref exJit [exC1, exC2] [exSchoolB]).isSome = true := by
  with_unfolding_all rfl

/-- The final state of the run on school B (106 students) with centers C1
(capacity 100) and C2 (capacity 50): the 6-student leftover at C2 is
redirected onto the already-allocated first candidate C1. -/
def exRun3F : RunState :=
  (runAll exDistC exPref exJit [exC1, exC2] [exSchoolB]).get exRun3_isSome

theorem exRun3F_spec :
    runAll exDistC exPref exJit [exC1, exC2] [exSchoolB] = some exRun3F :=
  (Option.some_get exRun3_isSome).symm

set_option maxRecDepth 10000 in
theorem exProc3_isSome :
    (processSchool exDistC exPref (exJit 0) (exJit 1) [exC1, exC2]
      (initState [exC1, exC2]) exSchoolB).isSome = true := by
  with_unfolding_all rfl

/-- The state after processing school B alone on centers C1 and C2. -/
def exProc3F : RunState :=
  (processSchool exDistC exPref (exJit 0) (exJit 1) [exC1, exC2]
    (initState [exC1, exC2]) exSchoolB).get exProc3_isSome

theorem exProc3F_spec :
    processSchool exDistC exPref (exJit 0) (exJit 1) [exC1, exC2]
      (initState [exC1, exC2]) exSchoolB = some exProc3F :=
  (Option.some_get exProc3_isSome).symm

set_option maxRecDepth 10000 in
theorem exRun2_isSome :
    (runAll exDistB exPref exJit [exC0, exC1, exC2]
      [exSchoolA, exSchoolB]).isSome = true := by
  with_unfolding_all rfl

/-- The final state of the redirect run on schools A, B and centers C0, C1,
C2. -/
def exRun2F : RunState :=
  (runAll exDistB exPref exJit [exC0, exC1, exC2]
    [exSchoolA, exSchoolB]).get exRun2_isSome

theorem exRun2F_spec :
    runAll exDistB exPref exJit [exC0, exC1, exC2] [exSchoolA, exSchoolB] =
      some exRun2F :=
  (Option.some_get exRun2_isSome).symm

/-! ## Claims -/

/-- C7: in a non-stretch call, with the idempotence guard passed, the
proposed amount is `min(to_allot, per_center, max(remaining, MIN_STUDENT_IN_CENTER))`
where `per_center` is 100 for a cohort of at most 400 and 200 otherwise,
and an allocation happens exactly when `to_allot > 0`, the amount is
positive, and the remaining capacity covers the amount. -/
theorem C7_nonstretch_amount (school : School) (fc : String) (cohort : ℤ)
    (st : LoopState) (c : Candidate) (next : ℤ)
    (hguard : is_allocated st.allocations c.cscode school.scode = false)
    (hnext : next = min st.to_allot (min (calc_per_center cohort)
      (max (st.remaining_cap c.cscode) MIN_STUDENT_IN_CENTER))) :
    calc_per_center cohort = (if cohort ≤ 400 then 100 else 200) ∧
    ((st.to_allot > 0 ∧ next > 0 ∧ st.remaining_cap c.cscode ≥ next) →
      (allocStep school fc (calc_per_center cohort) false st c).to_allot =
          st.to_allot - next ∧
      ∃ rc, (allocStep school fc (calc_per_center cohort) false st c).events =
        st.events ++ [⟨school.scode, rc, c.cscode, next, false⟩]) ∧
    (¬(st.to_allot > 0 ∧ next > 0 ∧ st.remaining_cap c.cscode ≥ next) →
      allocStep school fc (calc_per_center cohort) false st c = st) := by
  subst hnext
  refine ⟨rfl, ?_, ?_⟩
  · intro hadm
    simp only [allocStep, hguard, Bool.false_eq_true, if_false]
    rw [if_pos hadm]
    exact ⟨rfl, _, rfl⟩
  · intro hadm
    simp only [allocStep, hguard, Bool.false_eq_true, if_false]
    exact if_neg hadm

/-- Witness for C7 at a concrete state: a school of 50 students, one
candidate with 200 remaining; the amount is 50 and the allocation fires. -/
theorem C7_witness :
    is_allocated (fun _ _ => none) exCand1.cscode exSchool1.scode = false ∧
    (50 : ℤ) = min (50 : ℤ) (min (calc_per_center 50)
      (max ((fun _ => (200 : ℤ)) exCand1.cscode) MIN_STUDENT_IN_CENTER)) ∧
    ((50 : ℤ) > 0 ∧ (50 : ℤ) > 0 ∧ (fun _ => (200 : ℤ)) exCand1.cscode ≥ 50 →
      (allocStep exSchool1 "C1" (calc_per_center 50) false
        ⟨50, fun _ _ => none, fun _ => 200, [], []⟩ exCand1).to_allot =
        50 - 50 ∧
      ∃ rc, (allocStep exSchool1 "C1" (calc_per_center 50) false
        ⟨50, fun _ _ => none, fun _ => 200, [], []⟩ exCand1).events =
        [] ++ [⟨exSchool1.scode, rc, exCand1.cscode, 50, false⟩]) := by
  refine ⟨rfl, by decide, ?_⟩
  exact (C7_nonstretch_amount exSchool1 "C1" 50
    ⟨50, fun _ _ => none, fun _ => 200, [], []⟩ exCand1 50 rfl (by decide)).2.1

set_option maxRecDepth 10000 in
/-- C2 as stated is false on the code: the guard consulted before an
allocation is `is_allocated(center_code, school_code)` — the reversed pair —
and `allocate` adds to an existing record.  On a real, completing run
(school B of 106 students, centers C1 of capacity 100 and C2 of capacity
50, all within the preferred distance), the pair (B, C1) receives two
allocation events in the one non-stretch pass: 100 directly, then the
6-student leftover redirected from C2, leaving an additive record of 106. -/
theorem C2_counterexample :
    runAll exDistC exPref exJit [exC1, exC2] [exSchoolB] = some exRun3F ∧
    exRun3F.events.map (fun e => (e.scode, e.recorded, e.amount, e.stretch)) =
      [("B", "C1", 100, false), ("B", "C1", 6, false)] ∧
    exRun3F.allocations "B" "C1" = some 106 := by
  refine ⟨exRun3F_spec, ?_, ?_⟩ <;> with_unfolding_all decide

/-- C2 amended: `allocate` adds to an existing (school, center) record, and
the loop guard skips an iteration only when the reversed pair — the
center's code in the school role — is already recorded. -/
theorem C2_amended_guard (a : Allocations) (s c : String) (n v : ℤ)
    (school : School) (fc : String) (pc : ℤ) (str : Bool) (st : LoopState)
    (cand : Candidate)
    (hv : a s c = some v)
    (hg : is_allocated st.allocations cand.cscode school.scode = true) :
    allocate a s c n s c = some (v + n) ∧
    allocStep school fc pc str st cand = st := by
  constructor
  · unfold allocate
    rw [if_pos ⟨rfl, rfl⟩, hv]
    rfl
  · exact allocStep_guard_skip school fc pc str st cand hg

/-- Witness for the amended C2 at concrete values: an existing record of 5
grows to 8, and a state whose reversed pair is recorded is left unchanged
by the loop iteration. -/
theorem C2_amended_witness :
    ((fun _ _ => some (5 : ℤ)) : Allocations) "x" "y" = some 5 ∧
    is_allocated (fun _ _ => some (0 : ℤ))
      exCand1.cscode exSchool1.scode = true ∧
    allocate (fun _ _ => some (5 : ℤ)) "x" "y" 3 "x" "y" = some 8 ∧
    allocStep exSchool1 "C1" 100 false
      ⟨7, fun _ _ => some (0 : ℤ), fun _ => 0, [], []⟩ exCand1 =
      ⟨7, fun _ _ => some (0 : ℤ), fun _ => 0, [], []⟩ := by
  have h := C2_amended_guard (fun _ _ => some (5 : ℤ)) "x" "y" 3 5
    exSchool1 "C1" 100 false
    ⟨7, fun _ _ => some (0 : ℤ), fun _ => 0, [], []⟩ exCand1 rfl rfl
  exact ⟨rfl, rfl, h.1, h.2⟩

/-- C3: the remaining-capacity counter never goes below zero.  Every
decrement a real run performs is a non-stretch one guarded by
`centers_cap_left >= next_allot` (the stretch branch is unreachable: the
only stretch call site, line 289, raises TypeError before the call runs),
so the whole ledger stays non-negative at every step of every call and at
the end of every completed run. -/
theorem C3_remaining_nonneg :
    (∀ (school : School) (fc : String) (pc : ℤ) (st : LoopState)
      (c : Candidate), (∀ k, 0 ≤ st.remaining_cap k) →
      ∀ k, 0 ≤ (allocStep school fc pc false st c).remaining_cap k) ∧
    ∀ (dist : DistFn) (pref : PrefFn) (jit : ℕ → JitterFn)
      (centers : List Center) (schools : List School) (F : RunState),
      runAll dist pref jit centers schools = some F →
      ∀ k, 0 ≤ F.centers_remaining_cap k :=
  ⟨fun school fc pc st c hI => allocStep_cap_nonneg school fc pc st c hI,
    fun dist pref jit centers schools F h =>
      runAll_cap_nonneg dist pref jit centers schools F h⟩

/-- Witness for C3 on the concrete redirect run and on one concrete loop
iteration. -/
theorem C3_witness :
    runAll exDistC exPref exJit [exC1, exC2] [exSchoolB] = some exRun3F ∧
    0 ≤ exRun3F.centers_remaining_cap "C1" ∧
    0 ≤ exRun3F.centers_remaining_cap "C2" ∧
    0 ≤ (allocStep exSchool1 "C1" 100 false
      ⟨50, fun _ _ => none, fun _ => 200, [], []⟩ exCand1).remaining_cap "C1" :=
  ⟨exRun3F_spec,
    C3_remaining_nonneg.2 exDistC exPref exJit [exC1, exC2] [exSchoolB]
      exRun3F exRun3F_spec "C1",
    C3_remaining_nonneg.2 exDistC exPref exJit [exC1, exC2] [exSchoolB]
      exRun3F exRun3F_spec "C2",
    C3_remaining_nonneg.1 exSchool1 "C1" 100
      ⟨50, fun _ _ => none, fun _ => 200, [], []⟩ exCand1
      (fun k => by show (0 : ℤ) ≤ 200; decide) "C1"⟩

set_option maxRecDepth 10000 in
/-- C4 as stated is false on the code when "allocated against a center" is
read off the allocations map (the quantity the output rows report): the
small-leftover redirect records an amount against the first candidate while
charging the iterated center, so recorded totals can exceed capacity even
with no stretch call.  Center C0 (capacity 10) ends with 16 recorded against
it — 10 from school A plus a redirected 6 from school B — in a run whose
events are all non-stretch. -/
theorem C4_counterexample :
    runAll exDistB exPref exJit [exC0, exC1, exC2] [exSchoolA, exSchoolB] =
      some exRun2F ∧
    (∀ e ∈ exRun2F.events, e.stretch = false) ∧
    recordedSum exRun2F.events "C0" = 16 ∧
    exC0.cscode = "C0" ∧ exC0.capacity = 10 ∧
    ¬recordedSum exRun2F.events "C0" ≤
      (exC0.capacity : ℤ) + ((exC0.capacity / 50 : ℕ) : ℤ) := by
  refine ⟨exRun2F_spec, ?_, ?_, rfl, rfl, ?_⟩ <;> with_unfolding_all decide

/-- C4 amended: for the amounts charged against a center's capacity ledger
(the quantity the admission test controls), the sum over a whole run is at
most the original capacity plus `floor(capacity * STRETCH_CAPACITY_FACTOR)`,
and at most the original capacity when no stretch allocation charged the
center. -/
theorem C4_amended_charged_bounds (dist : DistFn) (pref : PrefFn)
    (jit : ℕ → JitterFn) (centers : List Center) (schools : List School)
    (F : RunState) (hND : (centers.map Center.cscode).Nodup)
    (h : runAll dist pref jit centers schools = some F) :
    ∀ c0 ∈ centers,
      chargedSum F.events c0.cscode ≤
        (c0.capacity : ℤ) + ((c0.capacity / 50 : ℕ) : ℤ) ∧
      (stretchCharged F.events c0.cscode = false →
        chargedSum F.events c0.cscode ≤ (c0.capacity : ℤ)) := by
  intro c0 hc0
  have hacc := runAll_cap_account dist pref jit centers schools F h c0.cscode
  have hb := runAll_cap_bound dist pref jit centers schools F hND h c0 hc0
  have hinit := initCap_eq centers hND c0 hc0
  rw [hinit] at hacc
  constructor
  · have := hb.2
    omega
  · intro hns
    have := hb.1 hns
    omega

set_option maxRecDepth 10000 in
/-- Witness for the amended C4 on the redirect run: charged sums 10, 100
and 6 against capacities 10, 100 and 50. -/
theorem C4_amended_witness :
    ([exC0, exC1, exC2].map Center.cscode).Nodup ∧
    runAll exDistB exPref exJit [exC0, exC1, exC2] [exSchoolA, exSchoolB] =
      some exRun2F ∧
    stretchCharged exRun2F.events exC0.cscode = false ∧
    chargedSum exRun2F.events exC0.cscode ≤
      (exC0.capacity : ℤ) + ((exC0.capacity / 50 : ℕ) : ℤ) ∧
    chargedSum exRun2F.events exC0.cscode ≤ (exC0.capacity : ℤ) := by
  have hb := C4_amended_charged_bounds exDistB exPref exJit
    [exC0, exC1, exC2] [exSchoolA, exSchoolB] exRun2F (by decide)
    exRun2F_spec exC0 (List.mem_cons_self _ _)
  have hns : stretchCharged exRun2F.events exC0.cscode = false := by
    with_unfolding_all decide
  exact ⟨by decide, exRun2F_spec, hns, hb.1, hb.2 hns⟩

set_option maxRecDepth 10000 in
/-- C10: on the redirect run, school B's leftover of 6 is recorded in the
allocations map against first candidate C0, but C0 is absent from the
returned `allocated_centers` of that call, so no output row carries the
amount: B's only row is (B, C1, 100), and no (B, C0) row exists anywhere. -/
theorem C10_redirect_invisible :
    runAll exDistB exPref exJit [exC0, exC1, exC2] [exSchoolA, exSchoolB] =
      some exRun2F ∧
    exRun2F.allocations "B" "C0" = some 6 ∧
    (exRun2F.events.filter (fun e => e.scode = "B" ∧ e.recorded = "C0")).map
      (fun e => (e.charged, e.amount)) = [("C2", 6)] ∧
    (∀ r ∈ exRun2F.rows, ¬(r.scode = "B" ∧ r.cscode = "C0")) ∧
    exRun2F.rows.map (fun r => (r.scode, r.cscode, r.allocation)) =
      [("A", "C0", 10), ("B", "C1", 100)] := by
  refine ⟨exRun2F_spec, ?_, ?_, ?_, ?_⟩ <;> with_unfolding_all decide

set_option maxRecDepth 10000 in
/-- C5: for every iteration that completes, the events appended are all on
the school's behalf, their total is at most the student count, the
unallocated remainder `count - total` is non-negative, and exactly that
remainder (necessarily zero, since a positive remainder raises) is added to
the reported `remaining` counter.  The second conjunct evaluates the code
at a failing input: a school of 500 students with one center of capacity
30 leaves a remainder of 470, so the iteration raises at line 289 and no
shortfall is ever added to the reported total. -/
theorem C5_demand_reporting (dist : DistFn) (pref : PrefFn)
    (j1 j2 : JitterFn) (centers : List Center) (st : RunState) (s : School)
    (st' : RunState)
    (h : processSchool dist pref j1 j2 centers st s = some st') :
    (∃ new, st'.events = st.events ++ new ∧
      (∀ e ∈ new, e.scode = s.scode) ∧
      sumAmounts new ≤ (s.count : ℤ) ∧
      0 ≤ (s.count : ℤ) - sumAmounts new ∧
      st'.remaining = st.remaining + ((s.count : ℤ) - sumAmounts new)) ∧
    processSchool exDist exPref (exJit 0) (exJit 1) [exCenterSmall]
      (initState [exCenterSmall]) exSchoolC = none := by
  constructor
  · obtain ⟨l1, h1, hpos, rfl⟩ :=
      processSchool_eq_some dist pref j1 j2 centers st s st' h
    obtain ⟨new1, hnew1, hq1, hsum1, hle1, hnn1⟩ :
        ∃ new, (pass1 st s l1).events = st.events ++ new ∧
          (∀ e ∈ new, e.scode = s.scode ∧ e.stretch = false ∧ 0 < e.amount ∧
            e.charged ∈ l1.map (fun c : Candidate => c.cscode) ∧
            e.recorded ∈ l1.map (fun c : Candidate => c.cscode)) ∧
          (pass1 st s l1).to_allot + sumAmounts new = (s.count : ℤ) ∧
          (pass1 st s l1).to_allot ≤ (s.count : ℤ) ∧
          (0 ≤ (s.count : ℤ) → 0 ≤ (pass1 st s l1).to_allot) :=
      allocate_to_centers_spec l1 s (s.count : ℤ) st.allocations
        st.centers_remaining_cap st.events false
    have ht1nn : 0 ≤ (pass1 st s l1).to_allot := hnn1 (Int.natCast_nonneg _)
    have ht1z : (pass1 st s l1).to_allot = 0 :=
      le_antisymm (not_lt.mp hpos) ht1nn
    have hev : (finishSchool s st (pass1 st s l1)).events =
        st.events ++ new1 := by
      show (pass1 st s l1).events = st.events ++ new1
      rw [hnew1]
    have hrem : (finishSchool s st (pass1 st s l1)).remaining =
        if (pass1 st s l1).to_allot > 0 then
          st.remaining + (pass1 st s l1).to_allot
        else st.remaining := rfl
    refine ⟨new1, hev, fun e he => (hq1 e he).1, by omega, by omega, ?_⟩
    rw [hrem, if_neg hpos]
    omega
  · with_unfolding_all rfl

/-- Witness for C5 on a concrete completing school: B's 106 students are
fully allocated in the single pass and nothing is added to the shortfall. -/
theorem C5_witness :
    processSchool exDistC exPref (exJit 0) (exJit 1) [exC1, exC2]
      (initState [exC1, exC2]) exSchoolB = some exProc3F ∧
    (∀ e ∈ exProc3F.events, e.scode = exSchoolB.scode) ∧
    sumAmounts exProc3F.events ≤ (exSchoolB.count : ℤ) ∧
    0 ≤ (exSchoolB.count : ℤ) - sumAmounts exProc3F.events ∧
    exProc3F.remaining = (initState [exC1, exC2]).remaining +
      ((exSchoolB.count : ℤ) - sumAmounts exProc3F.events) := by
  obtain ⟨new, hnew, hsc, hle, hnn, hrem⟩ :=
    (C5_demand_reporting exDistC exPref (exJit 0) (exJit 1) [exC1, exC2]
      (initState [exC1, exC2]) exSchoolB exProc3F exProc3F_spec).1
  have hne : exProc3F.events = new := by
    rw [hnew]
    rfl
  rw [hne]
  exact ⟨exProc3F_spec, hsc, hle, hnn, hrem⟩

/-- C1 describes intended behavior the code does not have: when the first
pass leaves a positive remainder, the source reaches line 289, which calls
`allocate_to_centers` with the keyword `stretch_capacity=True` although the
parameter (line 181) is named `stretch`.  The call raises TypeError, so the
iteration fails — no stretch pass runs, no shortfall is logged, and the
whole run halts exactly when unmet demand remains. -/
theorem C1_second_pass_raises (dist : DistFn) (pref : PrefFn)
    (j1 j2 : JitterFn) (centers : List Center) (st : RunState) (s : School)
    (l1 : List Candidate)
    (h1 : centers_within_distance dist pref j1 s centers
      PREF_DISTANCE_THRESHOLD = some l1)
    (hpos : 0 < (pass1 st s l1).to_allot) :
    processSchool dist pref j1 j2 centers st s = none ∧
    ∀ (jit : ℕ → JitterFn) (rest : List School) (i : ℕ) (st0 : RunState),
      processSchool dist pref (jit (2 * i)) (jit (2 * i + 1)) centers st0 s =
        none →
      runSchools dist pref jit centers (s :: rest) i st0 = none := by
  constructor
  · exact processSchool_halts_of_remainder dist pref j1 j2 centers st s l1
      h1 hpos
  · intro jit rest i st0 hp
    simp only [runSchools, hp, Option.bind_eq_bind, Option.none_bind]

set_option maxRecDepth 10000 in
/-- Witness for C1 at a concrete failing input: count 1100, one candidate
of capacity 1000; the normal pass leaves 900 and the iteration (and hence
the run) dies. -/
theorem C1_witness :
    centers_within_distance exDist exPref (exJit 0) exSchool1 [exCenter1]
      PREF_DISTANCE_THRESHOLD = some [exCand1] ∧
    0 < (pass1 (initState [exCenter1]) exSchool1 [exCand1]).to_allot ∧
    processSchool exDist exPref (exJit 0) (exJit 1) [exCenter1]
      (initState [exCenter1]) exSchool1 = none ∧
    runAll exDist exPref exJit [exCenter1] [exSchool1] = none := by
  have ha : centers_within_distance exDist exPref (exJit 0) exSchool1
      [exCenter1] PREF_DISTANCE_THRESHOLD = some [exCand1] := by
    with_unfolding_all decide
  have hb : 0 < (pass1 (initState [exCenter1]) exSchool1 [exCand1]).to_allot := by
    with_unfolding_all decide
  have h := C1_second_pass_raises exDist exPref (exJit 0) (exJit 1)
    [exCenter1] (initState [exCenter1]) exSchool1 [exCand1] ha hb
  exact ⟨ha, hb, h.1, h.2 exJit [] 0 (initState [exCenter1]) h.1⟩

set_option maxRecDepth 10000 in
/-- C6 as stated is false on the code: a school whose latitude field is
empty gets the empty candidate list even when a (non-qualifying, non-self)
center exists, so not every school receives a non-empty candidate list. -/
theorem C6_counterexample :
    exCenter1 ∈ [exCenter1] ∧ exCenter1.cscode ≠ exSchoolNoGeo.scode ∧
    withinList exDistFar exPref exSchoolNoGeo [exCenter1]
      PREF_DISTANCE_THRESHOLD = [] ∧
    centers_within_distance exDistFar exPref (exJit 0) exSchoolNoGeo
      [exCenter1] PREF_DISTANCE_THRESHOLD = some [] ∧
    centers_within_distance exDistFar exPref (exJit 0) exSchoolNoGeo
        [exCenter1] PREF_DISTANCE_THRESHOLD ≠
      some [center_to_dict exCenter1 (exDistFar exSchoolNoGeo exCenter1)] := by
  refine ⟨by decide, by decide, by decide, by decide, ?_⟩
  intro hc
  rw [show centers_within_distance exDistFar exPref (exJit 0) exSchoolNoGeo
      [exCenter1] PREF_DISTANCE_THRESHOLD = some [] by decide] at hc
  exact absurd hc (by simp)

/-- C6 amended: for a school with non-empty coordinate fields, if the
within-distance set is empty and at least one non-self center exists, the
selection returns exactly the one-element list holding the globally nearest
non-self center. -/
theorem C6_amended_fallback (dist : DistFn) (pref : PrefFn)
    (jitter : JitterFn) (s : School) (centers : List Center) (thr : ℚ)
    (hlat : s.lat ≠ "") (hlong : s.long ≠ "")
    (hwithin : withinList dist pref s centers thr = [])
    (hex : ∃ c ∈ centers, s.scode ≠ c.cscode) :
    ∃ n ∈ centers, s.scode ≠ n.cscode ∧
      nearestFold dist s centers = some (n, dist s n) ∧
      (∀ c ∈ centers, s.scode ≠ c.cscode → dist s n ≤ dist s c) ∧
      centers_within_distance dist pref jitter s centers thr =
        some [center_to_dict n (dist s n)] := by
  rcases hnf : nearestFold dist s centers with _ | ⟨n, d⟩
  · obtain ⟨c, hc, hne⟩ := hex
    exact absurd ((nearestFold_spec dist s centers).2 hnf c hc) hne
  · obtain ⟨m1, m2, m3, m4⟩ := (nearestFold_spec dist s centers).1 (n, d) hnf
    have hd : d = dist s n := m3
    refine ⟨n, m1, m2, by rw [hd], fun c hc hne => hd ▸ m4 c hc hne, ?_⟩
    unfold centers_within_distance
    rw [if_neg, if_neg, hnf, hd]
    · rw [hwithin]
      simp
    · rintro (hz | hz)
      · exact hlat (length_zero_eq_empty _ hz)
      · exact hlong (length_zero_eq_empty _ hz)

/-- Witness for the amended C6: a school with coordinates, one center 10 km
away — too far to qualify, still returned as the nearest fallback. -/
theorem C6_amended_witness :
    exSchool1.lat ≠ "" ∧ exSchool1.long ≠ "" ∧
    withinList exDistFar exPref exSchool1 [exCenter1]
      PREF_DISTANCE_THRESHOLD = [] ∧
    exCenter1 ∈ [exCenter1] ∧ exSchool1.scode ≠ exCenter1.cscode ∧
    centers_within_distance exDistFar exPref (exJit 0) exSchool1
        [exCenter1] PREF_DISTANCE_THRESHOLD =
      some [center_to_dict exCenter1 (exDistFar exSchool1 exCenter1)] := by
  obtain ⟨n, hn, hne, hnf, hmin, hcwd⟩ :=
    C6_amended_fallback exDistFar exPref (exJit 0) exSchool1 [exCenter1]
      PREF_DISTANCE_THRESHOLD (by decide) (by decide) (by decide)
      ⟨exCenter1, List.mem_singleton_self _, by decide⟩
  have hn1 : n = exCenter1 := by
    rw [List.mem_singleton] at hn
    exact hn
  subst hn1
  exact ⟨by decide, by decide, by decide, List.mem_singleton_self _,
    by decide, hcwd⟩

/-- C8: candidate selection never returns a candidate with the school's own
code, and consequently no event of any run records or charges an allocation
against the code of the school it serves. -/
theorem C8_self_exclusion (dist : DistFn) (pref : PrefFn)
    (jit : ℕ → JitterFn) (centers : List Center) (schools : List School)
    (F : RunState) (h : runAll dist pref jit centers schools = some F) :
    (∀ (j : JitterFn) (s : School) (thr : ℚ) (l : List Candidate),
      centers_within_distance dist pref j s centers thr = some l →
      ∀ cand ∈ l, cand.cscode ≠ s.scode) ∧
    ∀ e ∈ F.events, e.recorded ≠ e.scode ∧ e.charged ≠ e.scode :=
  ⟨fun j s thr l hl =>
      centers_within_distance_not_self dist pref j s centers thr l hl,
    runAll_events_not_self dist pref jit centers schools F h⟩

/-- Witness for C8 on a concrete run. -/
theorem C8_witness :
    runAll exDistB exPref exJit [exC0, exC1, exC2] [exSchoolA, exSchoolB] =
      some exRun2F ∧
    ∀ e ∈ exRun2F.events, e.recorded ≠ e.scode ∧ e.charged ≠ e.scode :=
  ⟨exRun2F_spec,
    (C8_self_exclusion exDistB exPref exJit [exC0, exC1, exC2]
      [exSchoolA, exSchoolB] exRun2F exRun2F_spec).2⟩

/-- C9's first half holds: a school with an empty latitude or longitude
field gets `some []` from candidate selection at any threshold — no
distance computed, no failure raised.  Its second half does not: with a
positive student count the whole count is left after the (empty) first
pass, the iteration reaches the broken `stretch_capacity=True` call of
line 289 and raises — a hard error, not a deferral.  Only a zero-count
school completes, with the state unchanged. -/
theorem C9_missing_coordinates (dist : DistFn) (pref : PrefFn)
    (j1 j2 : JitterFn) (centers : List Center) (st : RunState) (s : School)
    (h : s.lat = "" ∨ s.long = "") :
    (∀ (j : JitterFn) (thr : ℚ),
      centers_within_distance dist pref j s centers thr = some []) ∧
    (0 < s.count → processSchool dist pref j1 j2 centers st s = none) ∧
    (s.count = 0 → processSchool dist pref j1 j2 centers st s = some st) := by
  have hcwd : ∀ (j : JitterFn) (thr : ℚ),
      centers_within_distance dist pref j s centers thr = some [] := by
    intro j thr
    unfold centers_within_distance
    rw [if_pos]
    rcases h with h | h
    · left
      rw [h]
      rfl
    · right
      rw [h]
      rfl
  refine ⟨hcwd, ?_, ?_⟩
  · intro hc
    have hpos : 0 < (pass1 st s ([] : List Candidate)).to_allot := by
      show (0 : ℤ) < (s.count : ℤ)
      exact_mod_cast hc
    exact processSchool_halts_of_remainder dist pref j1 j2 centers st s []
      (hcwd j1 PREF_DISTANCE_THRESHOLD) hpos
  · intro hz
    simp only [processSchool, hcwd j1 PREF_DISTANCE_THRESHOLD,
      Option.bind_eq_bind, Option.some_bind, Option.pure_def]
    have hc : ¬(pass1 st s ([] : List Candidate)).to_allot > 0 := by
      show ¬(0 : ℤ) < (s.count : ℤ)
      rw [hz]
      simp
    rw [if_neg hc]
    simp only [Option.some_bind, Option.some_inj]
    show finishSchool s st (pass1 st s []) = st
    rcases st with ⟨al, cap, rem, rows, ev⟩
    simp only [finishSchool, pass1, allocate_to_centers, List.foldl_nil,
      List.map_nil, List.append_nil]
    rw [if_neg]
    show ¬(0 : ℤ) < (s.count : ℤ)
    rw [hz]
    simp

/-- Witness for C9: the empty-latitude school of 25 students crashes its
iteration; candidate selection itself returned the empty list without
failing. -/
theorem C9_witness :
    (exSchoolNoGeo.lat = "" ∨ exSchoolNoGeo.long = "") ∧
    centers_within_distance exDist exPref (exJit 0) exSchoolNoGeo
      [exCenter1] PREF_DISTANCE_THRESHOLD = some [] ∧
    0 < exSchoolNoGeo.count ∧
    processSchool exDist exPref (exJit 0) (exJit 1) [exCenter1]
      (initState [exCenter1]) exSchoolNoGeo = none := by
  have h := C9_missing_coordinates exDist exPref (exJit 0) (exJit 1)
    [exCenter1] (initState [exCenter1]) exSchoolNoGeo (Or.inl rfl)
  exact ⟨Or.inl rfl, h.1 (exJit 0) PREF_DISTANCE_THRESHOLD, by decide,
    h.2.1 (by decide)⟩

end SchoolCenter
